import Mathlib

/-!
Verification development for the App-Store webhook reporting service
(`app/appstore.py`, `app/main.py`).  The Python code is shallowly embedded:

* `parse_units_from_tsv` embeds `AppStoreClient._parse_units_from_tsv`;
  Python string helpers (`str.splitlines`, `str.strip`, `str.split('\t')`,
  `int(...)`) are modelled over ASCII text, which covers the report format.
* `determine_latest_available_date` embeds
  `AppStoreClient._determine_latest_available_date`, with calendar dates
  modelled as integer day numbers and the network fetch abstracted as a
  function `Int → Option Int` (the `Option Int` a `fetch_units_for_date`
  call produces for a date).
* `aggregate_units` embeds `AppStoreClient.aggregate_units`.
* `create_jwt` embeds the header/claim dictionaries that
  `AppStoreClient._create_jwt` hands to the signing library.
* The `...T` definitions re-embed the same routines threading a call
  counter (the "tick"), so that an environment `Nat → Int → Option Int`
  may answer differently as the run progresses; `runT` embeds `main.run`'s
  sequence of one anchor resolution for display followed by one
  `aggregate_units` call per period.
-/

/-- Python blank characters recognised by `str.strip()` (ASCII subset). -/
def isPySpace (c : Char) : Bool :=
  c == ' ' || c == '\t' || c == '\n' || c == '\r' || c == '\x0b' || c == '\x0c'

/-- Model of Python `str.strip()` (ASCII whitespace). -/
def pyStrip (s : String) : String :=
  ⟨((s.data.dropWhile isPySpace).reverse.dropWhile isPySpace).reverse⟩

/-- Model of Python `str.lower()` (ASCII letters, which is all the header uses). -/
def lowerStr (s : String) : String :=
  ⟨s.data.map Char.toLower⟩

/-- Worker for `splitlines`: accumulates the current line (reversed); the
flag records that the previous character was a carriage return, so that a
following newline does not open an extra empty line (CRLF handling). -/
def splitlinesGo : List Char → List Char → Bool → List String
  | [], acc, _ => if acc.isEmpty then [] else [⟨acc.reverse⟩]
  | c :: rest, acc, afterCR =>
    if c = '\n' then
      if afterCR then splitlinesGo rest acc false
      else ⟨acc.reverse⟩ :: splitlinesGo rest [] false
    else if c = '\r' then ⟨acc.reverse⟩ :: splitlinesGo rest [] true
    else splitlinesGo rest (c :: acc) false

/-- Model of Python `str.splitlines()` restricted to `\n`, `\r\n` and `\r`
terminators (the ones occurring in the TSV reports). -/
def splitlines (s : String) : List String :=
  splitlinesGo s.data [] false

/-- Worker for `splitTab`: splits on tab characters, keeping empty fields,
so that `"".split('\t') == ['']` and `"a\t".split('\t') == ['a','']`. -/
def splitTabGo : List Char → List Char → List String
  | [], acc => [⟨acc.reverse⟩]
  | c :: rest, acc =>
    if c = '\t' then ⟨acc.reverse⟩ :: splitTabGo rest []
    else splitTabGo rest (c :: acc)

/-- Model of Python `row.split('\t')`. -/
def splitTab (s : String) : List String :=
  splitTabGo s.data []

/-- Digit-run acceptor for Python `int`: ASCII digits with single
underscores allowed between digits.  The boolean records whether the last
consumed character was a digit (an underscore is only legal after one, and
the run must end on one). -/
def pyDigits : List Char → Nat → Bool → Option Nat
  | [], acc, lastDigit => if lastDigit then some acc else none
  | c :: cs, acc, lastDigit =>
    if c.isDigit then pyDigits cs (acc * 10 + (c.toNat - '0'.toNat)) true
    else if c = '_' && lastDigit then pyDigits cs acc false
    else none

/-- Model of Python `int(s)` on an already-stripped string: optional sign
followed by an ASCII digit run; anything else raises `ValueError`, modelled
as `none`. -/
def pyInt? (s : String) : Option Int :=
  match s.data with
  | '+' :: rest => (pyDigits rest 0 false).map Int.ofNat
  | '-' :: rest => (pyDigits rest 0 false).map (fun n => -(n : Int))
  | cs => (pyDigits cs 0 false).map Int.ofNat

/-- The non-blank lines of the report: `[l for l in tsv.splitlines() if l.strip()]`. -/
def nonblankLines (tsv : String) : List String :=
  (splitlines tsv).filter (fun l => pyStrip l != "")

/-- Python `list.index` / the fallback generator expression: index of the
first element satisfying the predicate. -/
def indexOfAux (p : String → Bool) : List String → Nat → Option Nat
  | [], _ => none
  | c :: cs, i => if p c then some i else indexOfAux p cs (i + 1)

/-- The units-column lookup of `_parse_units_from_tsv`:
`header.index('Units')`, and on `ValueError` the case-insensitive fallback
`next((i for i, h in enumerate(header) if h.lower() == 'units'), None)`. -/
def unitsIdx? (header : List String) : Option Nat :=
  match indexOfAux (fun h => h == "Units") header 0 with
  | some i => some i
  | none => indexOfAux (fun h => lowerStr h == "units") header 0

/-- The contribution of one data row to the running total: 0 when the row
is skipped (too few columns / blank cell / `int` failure), otherwise the
parsed integer. -/
def cellContrib (idx : Nat) (row : String) : Int :=
  match (splitTab row).get? idx with
  | none => 0
  | some cell =>
    let v := pyStrip cell
    if v = "" then 0
    else
      match pyInt? v with
      | none => 0
      | some n => n

/-- Whether `_parse_units_from_tsv`'s loop skips the row entirely
(`continue` on short row, blank cell, or `ValueError`). -/
def rowSkipped (idx : Nat) (row : String) : Bool :=
  match (splitTab row).get? idx with
  | none => true
  | some cell =>
    let v := pyStrip cell
    v == "" || (pyInt? v).isNone

/-- The accumulation loop `for row in lines[1:]: ... total += int(val)`. -/
def sumRows (idx : Nat) (rows : List String) : Int :=
  rows.foldl (fun acc r => acc + cellContrib idx r) 0

/-- Embedding of `AppStoreClient._parse_units_from_tsv`. -/
def parse_units_from_tsv (tsv : String) : Option Int :=
  match nonblankLines tsv with
  | [] => none
  | header :: rows =>
    match unitsIdx? (splitTab header) with
    | none => none
    | some idx => some (sumRows idx rows)

/-- The probing loop of `_determine_latest_available_date`:
`for offset in range(0, max_probe_days + 1)` starting at `offset`, with
`remaining` iterations left; returns the first candidate date
`base - offset` whose fetch yields data. -/
def probeAux (fetch : Int → Option Int) (base : Int) : Nat → Nat → Option Int
  | _, 0 => none
  | offset, remaining + 1 =>
    match fetch (base - (offset : Int)) with
    | some _ => some (base - (offset : Int))
    | none => probeAux fetch base (offset + 1) remaining

/-- Embedding of `AppStoreClient._determine_latest_available_date`.
Dates are integer day numbers; `today` is `datetime.now(utc).date()`,
`fetch` abstracts `fetch_units_for_date`. -/
def determine_latest_available_date (auto_latest : Bool) (max_probe_days : Nat)
    (lag_days today : Int) (fetch : Int → Option Int) : Option Int :=
  let base_candidate := today - lag_days
  if !auto_latest then some base_candidate
  else probeAux fetch base_candidate 0 (max_probe_days + 1)

/-- The window `[anchor_date - timedelta(days=i) for i in range(0, days)]`
of `aggregate_units` (line 140), dates as day numbers. -/
def windowDates (anchor : Int) (days : Nat) : List Int :=
  (List.range days).map (fun i : Nat => anchor - (i : Int))

/-- The collection loop of `aggregate_units`: fetch each date in order and
keep the non-`None` results. -/
def collectResults (fetch : Int → Option Int) : List Int → List Int
  | [] => []
  | d :: ds =>
    match fetch d with
    | some units => units :: collectResults fetch ds
    | none => collectResults fetch ds

/-- Embedding of `AppStoreClient.aggregate_units`. -/
def aggregate_units (auto_latest : Bool) (max_probe_days : Nat)
    (lag_days today : Int) (fetch : Int → Option Int) (days : Nat) : Option Int :=
  match determine_latest_available_date auto_latest max_probe_days lag_days today fetch with
  | none => none
  | some anchor_date =>
    let results := collectResults fetch (windowDates anchor_date days)
    if results = [] then none else some results.sum

/-- Header dictionary passed to `jwt.encode` in `_create_jwt`. -/
structure JwtHeader where
  kid : String
  typ : String
  alg : String
  deriving Repr, DecidableEq

/-- Claims dictionary passed to `jwt.encode` in `_create_jwt`. -/
structure JwtPayload where
  iss : String
  exp : Int
  aud : String
  deriving Repr, DecidableEq

/-- A signed credential, modelled as the header and claims handed to the
signing library (the ES256 signature itself is outside the embedding). -/
structure Jwt where
  header : JwtHeader
  payload : JwtPayload
  deriving Repr, DecidableEq

/-- Embedding of `AppStoreClient._create_jwt`: `now` is `int(time.time())`. -/
def create_jwt (issuer_id key_id : String) (now : Int) : Jwt :=
  { header := { kid := key_id, typ := "JWT", alg := "ES256" }
    payload := { iss := issuer_id, exp := now + 15 * 60, aud := "appstoreconnect-v1" } }

/-!
Traced re-embedding.  `main.run` resolves the anchor once for the display
line and then calls `aggregate_units` once per period; each such call
resolves the anchor again internally.  To reason about that sequencing the
same routines are re-embedded threading a tick `t` counting the fetch
calls made so far; the environment `env t d` is the answer the `t`-th
fetch call receives for date `d`, so availability may change mid-run.
-/

/-- Traced probing loop: one tick per fetch call. -/
def probeAuxT (env : Nat → Int → Option Int) (base : Int) :
    Nat → Nat → Nat → Option Int × Nat
  | _, 0, t => (none, t)
  | offset, remaining + 1, t =>
    match env t (base - (offset : Int)) with
    | some _ => (some (base - (offset : Int)), t + 1)
    | none => probeAuxT env base (offset + 1) remaining (t + 1)

/-- Traced `_determine_latest_available_date`. -/
def determineT (auto_latest : Bool) (max_probe_days : Nat) (lag_days today : Int)
    (env : Nat → Int → Option Int) (t : Nat) : Option Int × Nat :=
  let base_candidate := today - lag_days
  if !auto_latest then (some base_candidate, t)
  else probeAuxT env base_candidate 0 (max_probe_days + 1) t

/-- Traced collection loop of `aggregate_units`. -/
def collectResultsT (env : Nat → Int → Option Int) :
    List Int → Nat → List Int × Nat
  | [], t => ([], t)
  | d :: ds, t =>
    match env t d with
    | some units =>
      match collectResultsT env ds (t + 1) with
      | (rest, t2) => (units :: rest, t2)
    | none => collectResultsT env ds (t + 1)

/-- Traced `aggregate_units`; the first component records the anchor the
call derived internally (an observation on the trace, the second component
is the value the Python function returns). -/
def aggregate_unitsT (auto_latest : Bool) (max_probe_days : Nat) (lag_days today : Int)
    (env : Nat → Int → Option Int) (days : Nat) (t : Nat) :
    Option Int × Option Int × Nat :=
  match determineT auto_latest max_probe_days lag_days today env t with
  | (none, t1) => (none, none, t1)
  | (some anchor_date, t1) =>
    match collectResultsT env (windowDates anchor_date days) t1 with
    | (results, t2) =>
      (some anchor_date, if results = [] then none else some results.sum, t2)

/-- The per-period loop of `main.run`: one `aggregate_units` call per
period, sequentially; yields each window's (internal anchor, result). -/
def runWindowsT (auto_latest : Bool) (max_probe_days : Nat) (lag_days today : Int)
    (env : Nat → Int → Option Int) :
    List Nat → Nat → List (Option Int × Option Int) × Nat
  | [], t => ([], t)
  | days :: rest, t =>
    match aggregate_unitsT auto_latest max_probe_days lag_days today env days t with
    | (anchor, result, t1) =>
      match runWindowsT auto_latest max_probe_days lag_days today env rest t1 with
      | (tail, t2) => ((anchor, result) :: tail, t2)

/-- Embedding of `main.run`'s anchor/aggregation sequence: first
`_determine_latest_available_date` for the "Data through" display line,
then one `aggregate_units` call per period.  Returns the display anchor
and each window's (internal anchor, result). -/
def runT (auto_latest : Bool) (max_probe_days : Nat) (lag_days today : Int)
    (env : Nat → Int → Option Int) (periods : List Nat) :
    Option Int × List (Option Int × Option Int) :=
  match determineT auto_latest max_probe_days lag_days today env 0 with
  | (display_anchor, t0) =>
    (display_anchor, (runWindowsT auto_latest max_probe_days lag_days today env periods t0).1)

/-- Availability environment refuting anchor sharing: date 0 has a report
for the first three fetch calls of the run and none afterwards. -/
def envFlaky : Nat → Int → Option Int :=
  fun t d => if t < 3 && d == 0 then some 1 else none

/-- Static availability environment: only date 0 has a report (7 units). -/
def fetchStatic : Int → Option Int :=
  fun d => if d == 0 then some 7 else none

/-- Probe witness environment: with base candidate 8, only date 6
(offset 2) has a report. -/
def fetchOffset2 : Int → Option Int :=
  fun d => if d == 6 then some 7 else none

/-- Aggregation witness environment: only dates 9 and 7 have reports. -/
def fetchSparse : Int → Option Int :=
  fun d => if d == 9 then some 5 else if d == 7 then some 11 else none

/-- Sample report from `test_parsing.py`. -/
def sampleTsv : String :=
  "Provider\tProvider Country\tSKU\tDeveloper\tTitle\tVersion\tProduct Type Identifier\tUnits\nMyVendor\tUS\t123456789\tMe\tMyApp\t1.0\t1\t42\nMyVendor\tUS\t123456789\tMe\tMyApp\t1.0\t1\t8\n"

/-- Header line of `sampleTsv`. -/
def sampleHeaderRow : String :=
  "Provider\tProvider Country\tSKU\tDeveloper\tTitle\tVersion\tProduct Type Identifier\tUnits"

/-- First data row of `sampleTsv`. -/
def sampleRow1 : String := "MyVendor\tUS\t123456789\tMe\tMyApp\t1.0\t1\t42"

/-- Second data row of `sampleTsv`. -/
def sampleRow2 : String := "MyVendor\tUS\t123456789\tMe\tMyApp\t1.0\t1\t8"

/-! ### General-purpose lemmas about the embedded routines -/

theorem foldl_add_eq_sum (f : String → Int) (l : List String) :
    ∀ a : Int, l.foldl (fun acc r => acc + f r) a = a + (l.map f).sum := by
  induction l with
  | nil => intro a; simp
  | cons x xs ih =>
    intro a
    simp only [List.foldl_cons, List.map_cons, List.sum_cons, ih]
    ring

theorem sumRows_eq_map_sum (idx : Nat) (rows : List String) :
    sumRows idx rows = (rows.map (cellContrib idx)).sum := by
  simpa using foldl_add_eq_sum (cellContrib idx) rows 0

theorem cellContrib_eq_zero_of_skipped (idx : Nat) (row : String)
    (h : rowSkipped idx row = true) : cellContrib idx row = 0 := by
  unfold rowSkipped at h
  unfold cellContrib
  cases hg : (splitTab row).get? idx with
  | none => rfl
  | some cell =>
    rw [hg] at h
    simp only at h ⊢
    by_cases hb : pyStrip cell = ""
    · simp [hb]
    · simp only [hb, if_false]
      have hb2 : (pyStrip cell == "") = false := beq_eq_false_iff_ne.mpr hb
      rw [hb2, Bool.false_or] at h
      cases hp : pyInt? (pyStrip cell) with
      | none => rfl
      | some n => rw [hp] at h; simp at h

theorem indexOfAux_eq_none_iff (p : String → Bool) :
    ∀ (l : List String) (n : Nat),
      indexOfAux p l n = none ↔ ∀ a ∈ l, p a = false := by
  intro l
  induction l with
  | nil => intro n; simp [indexOfAux]
  | cons x xs ih =>
    intro n
    by_cases hp : p x = true
    · simp [indexOfAux, hp]
    · have hp' : p x = false := by simpa using hp
      simp [indexOfAux, hp', ih (n + 1)]

theorem unitsIdx?_eq_none_iff (header : List String) :
    unitsIdx? header = none ↔
      ∀ c ∈ header, c ≠ "Units" ∧ lowerStr c ≠ "units" := by
  unfold unitsIdx?
  cases h1 : indexOfAux (fun h => h == "Units") header 0 with
  | some i =>
    simp only [h1]
    constructor
    · intro h; cases h
    · intro hall
      exfalso
      have hnone : indexOfAux (fun h => h == "Units") header 0 = none :=
        (indexOfAux_eq_none_iff _ header 0).mpr
          (fun a ha => beq_eq_false_iff_ne.mpr (hall a ha).1)
      rw [hnone] at h1
      cases h1
  | none =>
    simp only [h1]
    rw [indexOfAux_eq_none_iff]
    have hall1 := (indexOfAux_eq_none_iff _ header 0).mp h1
    constructor
    · intro h2 c hc
      refine ⟨?_, ?_⟩
      · have := hall1 c hc
        simpa using this
      · have := h2 c hc
        simpa using this
    · intro h c hc
      exact beq_eq_false_iff_ne.mpr (h c hc).2

theorem probeAux_eq_some_of (fetch : Int → Option Int) (base : Int) :
    ∀ (remaining offset k : Nat), k < remaining →
      (fetch (base - ((offset + k : Nat) : Int))).isSome = true →
      (∀ j : Nat, j < k → fetch (base - ((offset + j : Nat) : Int)) = none) →
      probeAux fetch base offset remaining = some (base - ((offset + k : Nat) : Int)) := by
  intro remaining
  induction remaining with
  | zero => intro offset k hk _ _; exact absurd hk (Nat.not_lt_zero k)
  | succ r ih =>
    intro offset k hk hsome hnone
    cases k with
    | zero =>
      simp only [Nat.add_zero] at hsome ⊢
      cases hf : fetch (base - (offset : Int)) with
      | none => rw [hf] at hsome; simp at hsome
      | some u => simp [probeAux, hf]
    | succ k' =>
      have h0 : fetch (base - (offset : Int)) = none := by
        simpa using hnone 0 (Nat.succ_pos k')
      have heq : offset + (k' + 1) = offset + 1 + k' := by omega
      rw [heq] at hsome ⊢
      simp only [probeAux, h0]
      exact ih (offset + 1) k' (by omega) hsome (fun j hj => by
        have h := hnone (j + 1) (by omega)
        have heq2 : offset + (j + 1) = offset + 1 + j := by omega
        rw [heq2] at h
        exact h)

theorem probeAux_eq_none_of (fetch : Int → Option Int) (base : Int) :
    ∀ (remaining offset : Nat),
      (∀ j : Nat, j < remaining → fetch (base - ((offset + j : Nat) : Int)) = none) →
      probeAux fetch base offset remaining = none := by
  intro remaining
  induction remaining with
  | zero => intro offset _; rfl
  | succ r ih =>
    intro offset hnone
    have h0 : fetch (base - (offset : Int)) = none := by
      simpa using hnone 0 (Nat.succ_pos r)
    simp only [probeAux, h0]
    exact ih (offset + 1) (fun j hj => by
      have h := hnone (j + 1) (by omega)
      have heq : offset + (j + 1) = offset + 1 + j := by omega
      rw [heq] at h
      exact h)

theorem probeAuxT_fst_const (f : Int → Option Int) (base : Int) :
    ∀ (remaining offset t : Nat),
      (probeAuxT (fun _ => f) base offset remaining t).1
        = probeAux f base offset remaining := by
  intro remaining
  induction remaining with
  | zero => intro offset t; rfl
  | succ r ih =>
    intro offset t
    cases hf : f (base - (offset : Int)) with
    | none => simp [probeAuxT, probeAux, hf, ih]
    | some u => simp [probeAuxT, probeAux, hf]

theorem determineT_fst_const (f : Int → Option Int) (auto_latest : Bool)
    (max_probe_days : Nat) (lag_days today : Int) (t : Nat) :
    (determineT auto_latest max_probe_days lag_days today (fun _ => f) t).1
      = determine_latest_available_date auto_latest max_probe_days lag_days today f := by
  cases auto_latest with
  | false => rfl
  | true =>
    simpa [determineT, determine_latest_available_date] using
      probeAuxT_fst_const f (today - lag_days) (max_probe_days + 1) 0 t

theorem aggregate_unitsT_anchor_const (f : Int → Option Int) (auto_latest : Bool)
    (max_probe_days : Nat) (lag_days today : Int) (days t : Nat) :
    (aggregate_unitsT auto_latest max_probe_days lag_days today (fun _ => f) days t).1
      = determine_latest_available_date auto_latest max_probe_days lag_days today f := by
  rw [← determineT_fst_const f auto_latest max_probe_days lag_days today t]
  rcases hdet : determineT auto_latest max_probe_days lag_days today (fun _ => f) t with ⟨x, t1⟩
  cases x with
  | none => simp [aggregate_unitsT, hdet]
  | some anchor =>
    rcases hcol : collectResultsT (fun _ => f) (windowDates anchor days) t1 with ⟨results, t2⟩
    simp [aggregate_unitsT, hdet, hcol]

theorem runWindowsT_anchor_const (f : Int → Option Int) (auto_latest : Bool)
    (max_probe_days : Nat) (lag_days today : Int) :
    ∀ (periods : List Nat) (t : Nat),
      ∀ p ∈ (runWindowsT auto_latest max_probe_days lag_days today (fun _ => f) periods t).1,
        p.1 = determine_latest_available_date auto_latest max_probe_days lag_days today f := by
  intro periods
  induction periods with
  | nil => intro t p hp; simp [runWindowsT] at hp
  | cons days rest ih =>
    intro t p hp
    rcases hag : aggregate_unitsT auto_latest max_probe_days lag_days today (fun _ => f) days t
      with ⟨anchor, result, t1⟩
    rcases hrw : runWindowsT auto_latest max_probe_days lag_days today (fun _ => f) rest t1
      with ⟨tail, t2⟩
    simp only [runWindowsT, hag, hrw] at hp
    rcases List.mem_cons.mp hp with hp | hp
    · subst hp
      have h := aggregate_unitsT_anchor_const f auto_latest max_probe_days lag_days today days t
      rw [hag] at h
      exact h
    · exact ih t1 p (by rw [hrw]; exact hp)

theorem collectResults_eq_filterMap (fetch : Int → Option Int) :
    ∀ l : List Int, collectResults fetch l = l.filterMap fetch := by
  intro l
  induction l with
  | nil => simp [collectResults]
  | cons d ds ih =>
    cases hf : fetch d with
    | none => simp [collectResults, hf, ih, List.filterMap_cons]
    | some u => simp [collectResults, hf, ih, List.filterMap_cons]

/-! ### Claim theorems -/

/-- C1: for every tabular text whose header row (the first non-blank line,
split on tabs) contains a column named "Units", `parse_units_from_tsv`
returns the sum of exactly those cells in that column of the subsequent
non-blank rows that parse as integers; rows with too few columns, blank
cells, or non-integer cells are skipped (contribute zero) and do not
affect the contribution of any other row. -/
theorem parse_sums_units_column (t hd : String) (rows : List String) (i : Nat)
    (hl : nonblankLines t = hd :: rows)
    (hi : indexOfAux (fun h => h == "Units") (splitTab hd) 0 = some i) :
    parse_units_from_tsv t = some ((rows.map (cellContrib i)).sum) ∧
      ∀ r : String, rowSkipped i r = true → cellContrib i r = 0 := by
  constructor
  · have hu : unitsIdx? (splitTab hd) = some i := by
      unfold unitsIdx?
      rw [hi]
    simp only [parse_units_from_tsv, hl, hu, sumRows_eq_map_sum]
  · exact fun r hr => cellContrib_eq_zero_of_skipped i r hr

/-- Witness for C1 at the sample report of `test_parsing.py`: the parsed
total is the sum of the two Units cells, 42 + 8 = 50. -/
theorem parse_sums_units_column_witness :
    parse_units_from_tsv sampleTsv
        = some (([sampleRow1, sampleRow2].map (cellContrib 7)).sum) ∧
      ([sampleRow1, sampleRow2].map (cellContrib 7)).sum = 50 :=
  ⟨(parse_sums_units_column sampleTsv sampleHeaderRow [sampleRow1, sampleRow2] 7
      (by decide) (by decide)).1, by decide⟩

/-- C2 counterexample: the claim "whenever parse returns a value, that
value is non-negative" fails, because Python `int` also parses negative
cells: on `"Units\n-1"` the parser returns -1. -/
theorem parse_value_nonneg_cex :
    parse_units_from_tsv "Units\n-1" = some (-1) ∧ ¬ (0 : Int) ≤ -1 := by
  exact ⟨by decide, by decide⟩

/-- C2 (amended): whenever parse returns a value, that value is an
integer, possibly negative; it is non-negative whenever every data row's
contribution to the units column is non-negative (in particular whenever
no cell parses to a negative integer). -/
theorem parse_value_nonneg_of_cells (t hd : String) (rows : List String) (i : Nat)
    (hl : nonblankLines t = hd :: rows)
    (hi : unitsIdx? (splitTab hd) = some i)
    (hcells : ∀ r ∈ rows, 0 ≤ cellContrib i r) :
    parse_units_from_tsv t = some (sumRows i rows) ∧ 0 ≤ sumRows i rows := by
  constructor
  · simp only [parse_units_from_tsv, hl, hi]
  · rw [sumRows_eq_map_sum]
    exact List.sum_nonneg (by
      intro x hx
      rcases List.mem_map.mp hx with ⟨r, hr, hxr⟩
      rw [← hxr]
      exact hcells r hr)

/-- Witness for the amended C2 on `"Units\n3\n4"`: the parsed value 3 + 4
is non-negative. -/
theorem parse_value_nonneg_of_cells_witness :
    parse_units_from_tsv "Units\n3\n4" = some (sumRows 0 ["3", "4"]) ∧
      0 ≤ sumRows 0 ["3", "4"] :=
  parse_value_nonneg_of_cells "Units\n3\n4" "Units" ["3", "4"] 0
    (by decide) (by decide) (by decide)

/-- C3: `parse_units_from_tsv` returns `none` if and only if the input has
no non-blank lines or its header contains no column named "Units" under
exact match or case-insensitive fallback; and whenever the header has the
column but every data row is skipped, it returns `some 0`, not `none`. -/
theorem parse_absent_characterization (t : String) :
    (parse_units_from_tsv t = none ↔
        ∀ hd rows, nonblankLines t = hd :: rows →
          ∀ c ∈ splitTab hd, c ≠ "Units" ∧ lowerStr c ≠ "units") ∧
      (∀ hd rows i, nonblankLines t = hd :: rows →
        unitsIdx? (splitTab hd) = some i →
        (∀ r ∈ rows, rowSkipped i r = true) →
        parse_units_from_tsv t = some 0) := by
  constructor
  · cases hnb : nonblankLines t with
    | nil =>
      constructor
      · intro _ hd rows heq
        cases heq
      · intro _
        simp [parse_units_from_tsv, hnb]
    | cons hd rows =>
      constructor
      · intro hnone hd' rows' heq c hc
        injection heq with h1 h2
        subst h1
        simp only [parse_units_from_tsv, hnb] at hnone
        cases hu : unitsIdx? (splitTab hd) with
        | some j => rw [hu] at hnone; cases hnone
        | none => exact (unitsIdx?_eq_none_iff (splitTab hd)).mp hu c hc
      · intro hall
        have hu : unitsIdx? (splitTab hd) = none :=
          (unitsIdx?_eq_none_iff (splitTab hd)).mpr (hall hd rows rfl)
        simp [parse_units_from_tsv, hnb, hu]
  · intro hd rows i heq hu hsk
    have hzero : ∀ r ∈ rows, cellContrib i r = 0 :=
      fun r hr => cellContrib_eq_zero_of_skipped i r (hsk r hr)
    have hsum : (rows.map (cellContrib i)).sum = 0 :=
      List.sum_eq_zero (by
        intro x hx
        rcases List.mem_map.mp hx with ⟨r, hr, hxr⟩
        rw [← hxr]
        exact hzero r hr)
    simp only [parse_units_from_tsv, heq, hu, sumRows_eq_map_sum, hsum]

/-- Witness for C3: a report whose rows are all garbled still parses to
zero, while a report without a Units column parses to `none`. -/
theorem parse_absent_characterization_witness :
    parse_units_from_tsv "Units\nabc\n\t\n" = some 0 ∧
      parse_units_from_tsv "Provider\tCount\n1\t2" = none := by
  constructor
  · exact (parse_absent_characterization "Units\nabc\n\t\n").2 "Units" ["abc"] 0
      (by decide) (by decide) (by decide)
  · apply (parse_absent_characterization "Provider\tCount\n1\t2").1.mpr
    intro hd rows heq
    have hcomp : nonblankLines "Provider\tCount\n1\t2" = ["Provider\tCount", "1\t2"] := by
      decide
    rw [hcomp] at heq
    injection heq with h1 h2
    subst h1
    decide

/-- C4: when probing is enabled, for every availability assignment,
`determine_latest_available_date` returns base candidate (today − lag)
minus the smallest offset in 0 .. max probe depth (inclusive) whose date
has data — even if larger offsets also have data — and `none` when no
offset in that range has data. -/
theorem probing_prefers_smallest_offset (max_probe_days : Nat) (lag_days today : Int)
    (fetch : Int → Option Int) :
    (∀ k : Nat, k ≤ max_probe_days →
        (fetch (today - lag_days - (k : Int))).isSome = true →
        (∀ j : Nat, j < k → fetch (today - lag_days - (j : Int)) = none) →
        determine_latest_available_date true max_probe_days lag_days today fetch
          = some (today - lag_days - (k : Int))) ∧
      ((∀ k : Nat, k ≤ max_probe_days → fetch (today - lag_days - (k : Int)) = none) →
        determine_latest_available_date true max_probe_days lag_days today fetch = none) := by
  constructor
  · intro k hk hsome hnone
    have h := probeAux_eq_some_of fetch (today - lag_days) (max_probe_days + 1) 0 k
      (by omega) (by simpa using hsome) (fun j hj => by simpa using hnone j hj)
    simpa [determine_latest_available_date] using h
  · intro hall
    have h := probeAux_eq_none_of fetch (today - lag_days) (max_probe_days + 1) 0
      (fun j hj => by simpa using hall j (by omega))
    simpa [determine_latest_available_date] using h

/-- Witness for C4: lag 1, today 9 (so base candidate 8), max probe 5,
with data only at date 6 = base − 2: the resolver returns date 6. -/
theorem probing_prefers_smallest_offset_witness :
    determine_latest_available_date true 5 1 9 fetchOffset2 = some 6 := by
  have h := (probing_prefers_smallest_offset 5 1 9 fetchOffset2).1 2
    (by decide) (by decide) (by decide)
  norm_num at h
  exact h

/-- C5 counterexample: within one run the anchor is not resolved once and
shared — each `aggregate_units` call re-derives it.  With availability that
changes mid-run (`envFlaky`: date 0 available only for the first three
fetch calls), the first window derives anchor 0 while the second derives
none, so the windows reference different "data through" dates. -/
theorem anchor_not_shared_cex :
    (runT true 0 0 0 envFlaky [1, 1]).2.map Prod.fst = [some 0, none] ∧
      (runT true 0 0 0 envFlaky [1, 1]).1 = some 0 ∧
      (some (0 : Int) ≠ none) := by
  refine ⟨by decide, by decide, by decide⟩

/-- C5 (amended): the entry point resolves the anchor once for the display
line, and each aggregation window's `aggregate_units` call re-derives it
internally; whenever availability does not change during the run (a
tick-invariant environment), every window's internally derived anchor
equals the displayed one, so all periods reference the same "data
through" date. -/
theorem anchor_agrees_when_static (f : Int → Option Int) (auto_latest : Bool)
    (max_probe_days : Nat) (lag_days today : Int) (periods : List Nat) :
    ∀ p ∈ (runT auto_latest max_probe_days lag_days today (fun _ => f) periods).2,
      p.1 = (runT auto_latest max_probe_days lag_days today (fun _ => f) periods).1 := by
  intro p hp
  rcases hdet : determineT auto_latest max_probe_days lag_days today (fun _ => f) 0
    with ⟨disp, t0⟩
  have h1 : (runT auto_latest max_probe_days lag_days today (fun _ => f) periods).1 = disp := by
    simp [runT, hdet]
  have h2 : (runT auto_latest max_probe_days lag_days today (fun _ => f) periods).2
      = (runWindowsT auto_latest max_probe_days lag_days today (fun _ => f) periods t0).1 := by
    simp [runT, hdet]
  rw [h2] at hp
  rw [h1]
  have h3 := runWindowsT_anchor_const f auto_latest max_probe_days lag_days today periods t0 p hp
  have h4 := determineT_fst_const f auto_latest max_probe_days lag_days today 0
  rw [hdet] at h4
  rw [h3]
  exact h4.symm

/-- Witness for the amended C5: with static availability (`fetchStatic`,
data only at date 0) the first window's pair (anchor 0, total 7) has its
anchor equal to the displayed anchor. -/
theorem anchor_agrees_when_static_witness :
    (runT true 0 0 0 (fun _ => fetchStatic) [1, 1]).1 = some 0 :=
  (anchor_agrees_when_static fetchStatic true 0 0 0 [1, 1]
    (some 0, some 7) (by decide)).symm

/-- C6: once the anchor A is resolved, for a window of N dates of which
exactly K yield data, `aggregate_units` returns the plain sum of just
those K totals (no scaling, no rejection) when 0 < K, and `none` when
K = 0. -/
theorem aggregate_partial_sum (auto_latest : Bool) (max_probe_days : Nat)
    (lag_days today : Int) (fetch : Int → Option Int) (days : Nat) (A : Int) (K : Nat)
    (hA : determine_latest_available_date auto_latest max_probe_days lag_days today fetch
      = some A)
    (hK : K = ((windowDates A days).filterMap fetch).length) :
    (0 < K → aggregate_units auto_latest max_probe_days lag_days today fetch days
        = some (((windowDates A days).filterMap fetch).sum)) ∧
      (K = 0 → aggregate_units auto_latest max_probe_days lag_days today fetch days = none) := by
  have hagg : aggregate_units auto_latest max_probe_days lag_days today fetch days
      = (if (windowDates A days).filterMap fetch = [] then none
          else some (((windowDates A days).filterMap fetch).sum)) := by
    simp only [aggregate_units, hA, collectResults_eq_filterMap]
  constructor
  · intro hpos
    have hne : (windowDates A days).filterMap fetch ≠ [] := by
      intro hempty
      rw [hempty] at hK
      simp at hK
      omega
    rw [hagg, if_neg hne]
  · intro hzero
    have hempty : (windowDates A days).filterMap fetch = [] := by
      rw [hzero] at hK
      exact List.length_eq_zero.mp hK.symm
    rw [hagg, if_pos hempty]

/-- Witness for C6: probing off, lag 1, today 10 (anchor 9), window of 3
dates {9, 8, 7} with data only at 9 (5 units) and 7 (11 units): the
aggregate is the partial sum 16. -/
theorem aggregate_partial_sum_witness :
    aggregate_units false 5 1 10 fetchSparse 3
        = some (((windowDates 9 3).filterMap fetchSparse).sum) ∧
      ((windowDates 9 3).filterMap fetchSparse).sum = 16 :=
  ⟨(aggregate_partial_sum false 5 1 10 fetchSparse 3 9 2
      (by decide) (by decide)).1 (by decide), by decide⟩

/-- C7: for every anchor A and window length N ≥ 1, the dates the
aggregator fetches are exactly A, A−1, ..., A−(N−1): the list has length
N, its i-th entry is A−i, it has no duplicates, consecutive entries
descend by exactly one, and it starts at A. -/
theorem windowDates_exact (A : Int) (N : Nat) (hN : 1 ≤ N) :
    (windowDates A N).length = N ∧
      (∀ i : Nat, i < N → (windowDates A N)[i]? = some (A - (i : Int))) ∧
      (windowDates A N).Nodup ∧
      List.Chain' (fun a b => b = a - 1) (windowDates A N) ∧
      (windowDates A N).head? = some A := by
  refine ⟨by simp only [windowDates, List.length_map, List.length_range], ?_, ?_, ?_, ?_⟩
  · intro i hi
    simp only [windowDates, List.getElem?_map, List.getElem?_range hi, Option.map_some']
  · rw [windowDates]
    refine List.Nodup.map ?_ (List.nodup_range N)
    intro a b hab
    have hab2 : A - (a : Int) = A - (b : Int) := hab
    omega
  · rw [windowDates, List.chain'_map]
    rcases N with _ | n
    · omega
    · rw [List.chain'_range_succ]
      intro m hm
      push_cast
      ring
  · rcases N with _ | n
    · omega
    · rw [windowDates, List.range_succ_eq_map, List.map_cons, List.head?_cons]
      simp

/-- Witness for C7 at anchor 10, window 3: the fetched dates are
[10, 9, 8]. -/
theorem windowDates_exact_witness :
    (windowDates 10 3).length = 3 ∧ (windowDates 10 3)[2]? = some (10 - ((2 : Nat) : Int)) ∧
      (windowDates 10 3).head? = some 10 := by
  have h := windowDates_exact 10 3 (by decide)
  exact ⟨h.1, h.2.1 2 (by decide), h.2.2.2.2⟩

/-- C8: every credential produced by `create_jwt` carries header fields
{key id, type = JWT} and claims {issuer, expiry = issue time + 900 s,
audience}; its lifetime is exactly 900 s = 15 min, within the external
API's 20-minute cap. -/
theorem create_jwt_fields (issuer_id key_id : String) (now : Int) :
    (create_jwt issuer_id key_id now).header.kid = key_id ∧
      (create_jwt issuer_id key_id now).header.typ = "JWT" ∧
      (create_jwt issuer_id key_id now).payload.iss = issuer_id ∧
      (create_jwt issuer_id key_id now).payload.aud = "appstoreconnect-v1" ∧
      (create_jwt issuer_id key_id now).payload.exp = now + 900 ∧
      (create_jwt issuer_id key_id now).payload.exp - now ≤ 20 * 60 := by
  refine ⟨rfl, rfl, rfl, rfl, ?_, ?_⟩
  · show now + 15 * 60 = now + 900
    norm_num
  · show now + 15 * 60 - now ≤ 20 * 60
    omega

/-- C9: `parse_units_from_tsv` is a total function on strings — on every
input, including empty or malformed text, it yields either `none` or an
integer (the embedding is a total Lean function; every Python code path
either skips the row or returns, and the only `int` failure is caught). -/
theorem parse_units_total (t : String) :
    parse_units_from_tsv t = none ∨ ∃ v : Int, parse_units_from_tsv t = some v := by
  cases h : parse_units_from_tsv t with
  | none => exact Or.inl rfl
  | some v => exact Or.inr ⟨v, rfl⟩

/-- C10: `aggregate_units` with a window length of 0 always returns
`none`, whatever the availability: the computed date range is empty, so
the collected results are empty and reported as absent. -/
theorem aggregate_zero_days (auto_latest : Bool) (max_probe_days : Nat)
    (lag_days today : Int) (fetch : Int → Option Int) :
    aggregate_units auto_latest max_probe_days lag_days today fetch 0 = none := by
  cases h : determine_latest_available_date auto_latest max_probe_days lag_days today fetch with
  | none => simp [aggregate_units, h]
  | some anchor => simp [aggregate_units, h, windowDates, collectResults]
